import Mathlib

/-!
Verification of the SoundAnalyse plugin core
(src/SoundAnalyse/SoundAnalyse.js) against its specification.

Shallow embedding conventions:
* JS numbers are modelled as rationals (ℚ).  All inputs exercised by the
  claims are small integers, for which IEEE-754 double arithmetic and exact
  rational arithmetic agree; division-by-zero inputs (which yield NaN or
  Infinity in JS, e.g. a zero `maxMinValue`, a zero nominal run size, or a
  zero `resultSlots`) lie outside the hypotheses of the theorems below.
* Byte arrays (Uint8Array and plain JS arrays of numbers) are `List ℚ`;
  an element read `arr[i]` with `i` in bounds is `List.getD arr i 0`.
* The two undeclared identifiers that the resampling code touches
  (`normalizeValue`, read and written by `getAvgData` line 372; `size`,
  written by both resample functions) are modelled as an explicit global
  environment `JSGlobals`.  No script in this repository declares either
  identifier, so the initial environment has both absent; in sloppy-mode
  JS, reading an absent one throws a ReferenceError, modelled with
  `Except`, while assigning one creates it as a global.
* Mutating methods on the analyser object are state-passing functions on
  `AnalyserState`.
-/

/-- Models the JS `x || d` defaulting idiom on a possibly-missing numeric
argument: an omitted argument (`none`) and the falsy number `0` both give
the default `d`. -/
def jsOr (o : Option ℚ) (d : ℚ) : ℚ :=
  match o with
  | none => d
  | some v => if v = 0 then d else v

/-- Models JS `Math.round` on a (finite) number: round half toward
positive infinity. -/
def jsRoundQ (q : ℚ) : ℚ :=
  ((⌊q + 1/2⌋ : ℤ) : ℚ)

/-- Models JS `Math.round` producing a nonnegative integer (used for the
run size `destPart = Math.round(bufferLength / destBars)`, which is
nonnegative at every reachable call). -/
def jsRoundNat (q : ℚ) : ℕ :=
  (⌊q + 1/2⌋).toNat

/-- One iteration record of the resampling loops shared by
`Phaser.SoundAnalyser.getAvgData` (lines 371-417) and
`Phaser.SoundAnalyser.eachAvgData` (lines 433-485): the scaled value
`size` pushed/passed, the `percent` value, the bucket index and the
global source index passed to the `eachAvgData` callback. -/
structure Emit where
  sizeVal : ℤ
  percent : ℚ
  indexBar : ℕ
  globalIndex : ℕ
deriving Repr, DecidableEq, Inhabited

/-- The main bucket loop `for (var x = 0; x < destBars; x++) ...` shared
verbatim by `getAvgData` (lines 388-402) and `eachAvgData` (lines
453-468).  Arguments: remaining bars, current `x`, current source index
`i`.  Each iteration consumes up to `destPart` samples (the inner loop
stops early once `i >= bufferLength`), computes
`avg = Math.floor(sum / destPart)`, `percent = avg / maxMinValue` and
`size = Math.floor(outMaxValue * percent)`, records the iteration, and
leaves the loop after the current bucket once `i >= bufferLength`.
Returns (records, final x, final i). -/
def coreLoop (data : List ℚ) (bl destPart : ℕ) (mm om : ℚ) :
    ℕ → ℕ → ℕ → List Emit × ℕ × ℕ
  | 0, x, i => ([], x, i)
  | bars + 1, x, i =>
    let c := min destPart (bl - i)
    let s : ℚ := ((List.range c).map (fun k => data.getD (i + k) 0)).sum
    let avg : ℤ := ⌊s / (destPart : ℚ)⌋
    let pct : ℚ := (avg : ℚ) / mm
    let sz : ℤ := ⌊om * pct⌋
    let i2 := i + c
    if bl ≤ i2 then
      ([⟨sz, pct, x, i2⟩], x, i2)
    else
      let r := coreLoop data bl destPart mm om bars (x + 1) i2
      (⟨sz, pct, x, i2⟩ :: r.1, r.2.1, r.2.2)

/-- The nominal run size `destPart = Math.round(bufferLength / destBars)`
(lines 385 and 450). -/
def destPartOf (bl slots : ℕ) : ℕ :=
  jsRoundNat ((bl : ℚ) / (slots : ℚ))

/-- The resampling computation shared by `getAvgData` (lines 375-415) and
`eachAvgData` (lines 438-483), with `maxMinValue`/`outMaxValue` already
resolved to numbers.  If `bufferLength == resultSlots`, each sample maps
1:1 to a bucket; otherwise the main `coreLoop` runs over
`destBars = resultSlots` buckets of nominal size `destPart`, and if
source samples remain afterwards a final extra bucket sums them but
still divides by `destPart` (lines 403-414 resp. 469-482); its bucket
index is the post-loop `x + 1` and its global index is `bufferLength`. -/
def resampleCore (data : List ℚ) (bl slots : ℕ) (mm om : ℚ) : List Emit :=
  if bl = slots then
    (List.range bl).map (fun i =>
      let pct : ℚ := data.getD i 0 / mm
      ⟨⌊om * pct⌋, pct, i, i⟩)
  else
    let destPart := destPartOf bl slots
    let r := coreLoop data bl destPart mm om slots 0 0
    if r.2.2 < bl then
      let s : ℚ := ((List.range (bl - r.2.2)).map (fun k => data.getD (r.2.2 + k) 0)).sum
      let avg : ℤ := ⌊s / (destPart : ℚ)⌋
      let pct : ℚ := (avg : ℚ) / mm
      r.1 ++ [⟨⌊om * pct⌋, pct, r.2.1 + 1, bl⟩]
    else
      r.1

/-- `Phaser.SoundAnalyser.eachAvgData` (lines 433-485), observed through
its per-bucket callback invocations.  Lines 434-435 default the two
scale arguments: `maxMinValue = maxMinValue || 256;
outMaxValue = outMaxValue || maxMinValue;`. -/
def eachAvgDataEmits (data : List ℚ) (bl slots : ℕ) (mm? om? : Option ℚ) : List Emit :=
  let mm := jsOr mm? 256
  let om := jsOr om? mm
  resampleCore data bl slots mm om

/-- The value list `res` that the body of `getAvgData` (lines 373-416)
builds after its first line: one `res.push(size)` per bucket, in the
same spots where `eachAvgData` invokes its callback. -/
def getAvgDataBody (data : List ℚ) (bl slots : ℕ) (mm om : ℚ) : List ℤ :=
  (resampleCore data bl slots mm om).map Emit.sizeVal

/-- The global (script-level) variables the resample functions touch.
`normalizeValue` is read and assigned by `getAvgData` line 372
(`normalizeValue = normalizeValue || 256;` — the identifier is declared
nowhere); `size` is assigned, undeclared, by every bucket iteration of
both functions (`size = Math.floor(outMaxValue * percent, 10);`). -/
structure JSGlobals where
  normalizeValue : Option ℚ
  size : Option ℚ
deriving Repr, DecidableEq

/-- The global environment in which this repository's scripts run: no
script declares `normalizeValue` or `size`, so both are absent. -/
def jsInit : JSGlobals :=
  ⟨none, none⟩

/-- `Phaser.SoundAnalyser.getAvgData` (lines 371-417) with explicitly
supplied `maxMinValue`/`outMaxValue`.  Its first statement (line 372) is
`normalizeValue = normalizeValue || 256;`: in sloppy-mode JS, evaluating
the right-hand side reads the undeclared identifier `normalizeValue`,
which throws a ReferenceError when no global of that name exists — so in
this repository's `jsInit` environment the function always throws before
computing anything, and `maxMinValue` is never defaulted.  (Were such a
global present, the line would update it and the body would run, also
overwriting the global `size` with each bucket's scaled value.) -/
def getAvgData (g : JSGlobals) (data : List ℚ) (bl slots : ℕ) (mm om : ℚ) :
    Except String (JSGlobals × List ℤ) :=
  match g.normalizeValue with
  | none => .error "ReferenceError: normalizeValue is not defined"
  | some nv =>
    let g1 : JSGlobals := ⟨some (if nv = 0 then 256 else nv), g.size⟩
    let res := getAvgDataBody data bl slots mm om
    .ok (match res.getLast? with
          | some s => ⟨g1.normalizeValue, some (s : ℚ)⟩
          | none => g1, res)

/-- `Phaser.SoundAnalyser.eachAvgData` together with its effect on the
global environment: each bucket iteration executes
`size = Math.floor(outMaxValue * percent, 10);` where `size` is
undeclared, creating/overwriting the global `size` (sloppy mode), so a
call that computed at least one bucket leaves the last bucket's scaled
value in that global. -/
def eachAvgDataJS (g : JSGlobals) (data : List ℚ) (bl slots : ℕ) (mm? om? : Option ℚ) :
    JSGlobals × List Emit :=
  let es := eachAvgDataEmits data bl slots mm? om?
  (match es.getLast? with
   | some e => ⟨g.normalizeValue, some (e.sizeVal : ℚ)⟩
   | none => g, es)

/-- `Phaser.SoundAnalyser.prototype.getAvg` (lines 332-342): sums the
array and returns `Math.floor(values / length)` (the second argument
`10` passed to `Math.floor` is ignored by JS). -/
def getAvg (l : List ℚ) : ℤ :=
  ⌊l.sum / (l.length : ℚ)⌋

/-- A JS value slot of the analysis-frame dispatch: the code places
either a number or an array in the volume/average slots. -/
inductive JSVal where
  | num : ℚ → JSVal
  | arr : List ℚ → JSVal
deriving Repr, DecidableEq

/-- The argument tuple of the `onAnalyseUpdate.dispatch` /
`updateAnalyse` calls (lines 283 and 287). -/
structure FrameDispatch where
  frequencyData : List ℚ
  timeData : List ℚ
  bufferLength : ℕ
  volMeter : JSVal
  averageLeft : JSVal
  averageRight : JSVal
deriving Repr, DecidableEq

/-- The fake-data branch of `Phaser.SoundAnalyser.prototype.update`
(lines 270-283), parametrised by the array `getFakeData` returned this
tick: `_dataArray` and `_dataTimeArray` are both set to that array,
`averageLeft = this.getAvg(fakeData)` (a number), but
`averageRight = fakeData;` and `volMeter = fakeData;` (the array
itself), and the six values are dispatched in that order. -/
def updateFakeDispatch (fakeData : List ℚ) (bl : ℕ) : FrameDispatch :=
  { frequencyData := fakeData
    timeData := fakeData
    bufferLength := bl
    volMeter := .arr fakeData
    averageLeft := .num ((getAvg fakeData : ℤ) : ℚ)
    averageRight := .arr fakeData }

/-- `Phaser.SoundAnalyser.prototype.getFakeData` (lines 350-357),
parametrised by the pseudo-random draw sequence: it pushes
`Math.abs(this.game.rnd.integerInRange(this._minDecibels,
this._maxDecibels))` for each `k < this._bufferLength` and then sorts
with comparator `(a, b) => b - a`, i.e. into non-increasing order. -/
def getFakeData (bufferLength : ℕ) (draw : ℕ → ℤ) : List ℤ :=
  ((List.range bufferLength).map (fun k => |draw k|)).mergeSort (fun a b => decide (b ≤ a))

/-- The mutable per-analyser fields the configuration claims concern:
`_fastFourierTransform` (line 102), `_bufferLength` (line 81),
`_minDecibels` (line 137), `_maxDecibels` (line 170), `allowFakeData`
(line 43), plus a count of emitted `console.warn` messages. -/
structure AnalyserState where
  fastFourierTransform : ℚ
  bufferLength : ℚ
  minDecibels : ℚ
  maxDecibels : ℚ
  allowFakeData : Bool
  warnCount : ℕ
deriving Repr, DecidableEq

/-- The `Phaser.SoundAnalyser` constructor (lines 35-239) in the
environment the fake-data claims concern (no `context.createAnalyser`
capability, so lines 234-238 run and `_bufferLength` becomes
`_fastFourierTransform = 2048`).  Line 43 reads
`this.allowFakeData = true;//allowFakeData === true;` — the supplied
argument is ignored and the property is hardcoded `true`; the intended
expression survives only as the trailing comment. -/
def mkAnalyserState (_allowFakeDataArg : Option Bool) : AnalyserState :=
  { fastFourierTransform := 2048
    bufferLength := 2048
    minDecibels := -150
    maxDecibels := 10
    allowFakeData := true
    warnCount := 0 }

/-- The `fastFourierTransform` property setter (lines 114-129).  The
guard is `typeof val === "number" && val >= 32 && val <= 2048 &&
val % 2 === 0` — the last conjunct tests evenness (`val % 2 === 0` holds
exactly when `val / 2` is an integer), not power-of-two-ness.  On
acceptance `Math.round(val)` is stored in both `_fastFourierTransform`
and `_bufferLength`; otherwise a warning is logged and the stored state
is unchanged.  (The `analyserNode.fftSize` write on line 120 targets the
external audio node, absent in the modelled no-capability environment
where `supportAnalyse` is false.) -/
def setFastFourierTransform (st : AnalyserState) (val : ℚ) : AnalyserState :=
  if 32 ≤ val ∧ val ≤ 2048 ∧ (val / 2).den = 1 then
    { st with fastFourierTransform := jsRoundQ val, bufferLength := jsRoundQ val }
  else
    { st with warnCount := st.warnCount + 1 }

/-- The `minDecibels` property setter (lines 149-162) for a numeric
argument (the model's argument type is ℚ, so the
`typeof val === "number"` guard always passes). -/
def setMinDecibels (st : AnalyserState) (val : ℚ) : AnalyserState :=
  { st with minDecibels := val }

/-- The `maxDecibels` property setter (lines 182-195) for a numeric
argument. -/
def setMaxDecibels (st : AnalyserState) (val : ℚ) : AnalyserState :=
  { st with maxDecibels := val }

/-- The downward scan of `removeBitmapSoundAnalyse` (lines 316-321):
`for (var k = length - 1; k >= 0; --k) if (arr[k] === bmp) ...` —
returns the index of the first match found scanning indices
`n - 1, n - 2, ..., 0`. -/
def findLastIdxAux (l : List ℕ) (b : ℕ) : ℕ → Option ℕ
  | 0 => none
  | k + 1 => if l[k]? = some b then some k else findLastIdxAux l b k

/-- `Phaser.SoundAnalyser.prototype.removeBitmapSoundAnalyse`
(lines 315-323) acting on the `bmpSoundAnalyze` registry (consumers
modelled by identity tokens): scan from the last index down, splice out
the first match found (i.e. the latest-registered occurrence), then
break; no match leaves the registry unchanged.  The method returns
`this`; in the embedding the updated registry is the result. -/
def removeBitmapSoundAnalyse (l : List ℕ) (b : ℕ) : List ℕ :=
  match findLastIdxAux l b l.length with
  | some k => l.take k ++ l.drop (k + 1)
  | none => l

/-- `Phaser.SoundAnalyser.prototype.addBitmapSoundAnalyse`
(lines 302-305): push onto the registry and return self. -/
def addBitmapSoundAnalyse (l : List ℕ) (b : ℕ) : List ℕ :=
  l ++ [b]

/-- Sum of the `n` consecutive source samples starting at `start`
(statement-side view of one run of the bucket loop). -/
def chunkSum (data : List ℚ) (start n : ℕ) : ℚ :=
  ((data.drop start).take n).sum

/-- The iteration record the main bucket loop produces for a full run of
`destPart` samples starting at `start`, with bucket index `x`. -/
def mainBucket (data : List ℚ) (destPart : ℕ) (mm om : ℚ) (x start : ℕ) : Emit :=
  let avg : ℤ := ⌊chunkSum data start destPart / (destPart : ℚ)⌋
  ⟨⌊om * ((avg : ℚ) / mm)⌋, (avg : ℚ) / mm, x, start + destPart⟩

/-- The iteration record of the trailing partial-run bucket: it sums the
remaining `bl - i` samples but still divides by the nominal run size
`destPart`. -/
def remBucket (data : List ℚ) (bl destPart : ℕ) (mm om : ℚ) (x i : ℕ) : Emit :=
  let avg : ℤ := ⌊chunkSum data i (bl - i) / (destPart : ℚ)⌋
  ⟨⌊om * ((avg : ℚ) / mm)⌋, (avg : ℚ) / mm, x, bl⟩

lemma rangeSum_eq_chunkSum (data : List ℚ) (start n : ℕ) (h : start + n ≤ data.length) :
    ((List.range n).map (fun k => data.getD (start + k) 0)).sum = chunkSum data start n := by
  unfold chunkSum
  congr 1
  apply List.ext_getElem
  · simp
    omega
  · intro j h1 h2
    simp only [List.getElem_map, List.getElem_range]
    rw [List.getD_eq_getElem data 0 (by simp at h1; omega)]
    rw [List.getElem_take, List.getElem_drop]

lemma coreLoop_noBreak (data : List ℚ) (bl destPart : ℕ) (mm om : ℚ)
    (hbl : bl ≤ data.length) :
    ∀ bars x i, i + bars * destPart < bl →
      coreLoop data bl destPart mm om bars x i =
        ((List.range bars).map (fun j =>
          mainBucket data destPart mm om (x + j) (i + j * destPart)),
         x + bars, i + bars * destPart) := by
  intro bars
  induction bars with
  | zero => intro x i h; simp [coreLoop]
  | succ bars ih =>
    intro x i h
    have hexp : (bars + 1) * destPart = bars * destPart + destPart := by ring
    rw [hexp] at h
    have hc : min destPart (bl - i) = destPart := by omega
    have hi2 : ¬ bl ≤ i + destPart := by omega
    rw [coreLoop]
    simp only [hc, if_neg hi2]
    rw [ih (x + 1) (i + destPart) (by omega)]
    rw [List.range_succ_eq_map, List.map_cons, List.map_map]
    simp only [Prod.mk.injEq, List.cons.injEq]
    refine ⟨⟨?_, ?_⟩, ?_, ?_⟩
    · rw [rangeSum_eq_chunkSum data i destPart (by omega)]
      simp [mainBucket]
    · apply List.map_congr_left
      intro j hj
      simp only [Function.comp_apply]
      have hsucc : j.succ * destPart = j * destPart + destPart := Nat.succ_mul j destPart
      congr 1
      · omega
      · omega
    · omega
    · omega

lemma resampleCore_split (data : List ℚ) (slots : ℕ) (mm om : ℚ)
    (hne : data.length ≠ slots)
    (hrem : slots * destPartOf data.length slots < data.length) :
    resampleCore data data.length slots mm om =
      (List.range slots).map (fun j =>
        mainBucket data (destPartOf data.length slots) mm om j (j * destPartOf data.length slots))
      ++ [remBucket data data.length (destPartOf data.length slots) mm om (slots + 1)
            (slots * destPartOf data.length slots)] := by
  have hcl := coreLoop_noBreak data data.length (destPartOf data.length slots) mm om le_rfl
    slots 0 0 (by omega)
  simp only [resampleCore, if_neg hne]
  rw [hcl]
  simp only [Nat.zero_add]
  rw [if_pos (by omega)]
  rw [rangeSum_eq_chunkSum data (slots * destPartOf data.length slots)
    (data.length - slots * destPartOf data.length slots) (by omega)]
  simp only [remBucket]

lemma chunks_partition (data : List ℚ) (destPart : ℕ) :
    ∀ (slots i : ℕ),
      ((List.range slots).map (fun j => (data.drop (i + j * destPart)).take destPart)).flatten
        ++ data.drop (i + slots * destPart) = data.drop i := by
  intro slots
  induction slots with
  | zero => intro i; simp
  | succ slots ih =>
    intro i
    rw [List.range_succ_eq_map, List.map_cons, List.map_map, List.flatten_cons]
    have h1 : ∀ j, ((fun j => (data.drop (i + j * destPart)).take destPart) ∘ Nat.succ) j
        = (fun j => (data.drop ((i + destPart) + j * destPart)).take destPart) j := by
      intro j
      simp only [Function.comp_apply]
      congr 2
      rw [Nat.succ_mul]
      omega
    rw [List.map_congr_left (fun j _ => h1 j)]
    have h2 : i + (slots + 1) * destPart = (i + destPart) + slots * destPart := by
      rw [Nat.succ_mul]
      omega
    rw [h2, List.append_assoc, ih (i + destPart)]
    simp only [Nat.zero_mul, Nat.add_zero]
    have h3 : data.drop (i + destPart) = (data.drop i).drop destPart := by
      rw [List.drop_drop]
    rw [h3, List.take_append_drop]

lemma jsRoundQ_natCast (n : ℕ) : jsRoundQ (n : ℚ) = (n : ℚ) := by
  unfold jsRoundQ
  have h : ⌊(n : ℚ) + 1 / 2⌋ = (n : ℤ) := by
    rw [Int.floor_eq_iff]
    constructor
    · push_cast
      norm_num
    · push_cast
      norm_num
  rw [h]
  push_cast
  rfl

lemma destPartOf_ten_three : destPartOf 10 3 = 3 := by
  norm_num [destPartOf, jsRoundNat]
  rfl

lemma findLastIdxAux_lt (l : List ℕ) (b : ℕ) :
    ∀ n k, findLastIdxAux l b n = some k → k < n := by
  intro n
  induction n with
  | zero => intro k h; simp [findLastIdxAux] at h
  | succ n ih =>
    intro k h
    rw [findLastIdxAux] at h
    split at h
    · injection h with h'
      omega
    · have := ih k h
      omega

lemma findLastIdxAux_append (l : List ℕ) (a b : ℕ) :
    ∀ n, n ≤ l.length → findLastIdxAux (l ++ [a]) b n = findLastIdxAux l b n := by
  intro n
  induction n with
  | zero => intro _; rfl
  | succ n ih =>
    intro hn
    rw [findLastIdxAux, findLastIdxAux]
    rw [List.getElem?_append_left (by omega)]
    rw [ih (by omega)]

lemma eachAvgDataEmits_ten_three :
    (eachAvgDataEmits [0, 0, 0, 0, 0, 0, 0, 0, 0, 255] 10 3 (some 256) (some 256)).map
      Emit.sizeVal = [0, 0, 0, 85] := by
  have hemits : eachAvgDataEmits [0, 0, 0, 0, 0, 0, 0, 0, 0, 255] 10 3 (some 256) (some 256) =
      resampleCore [0, 0, 0, 0, 0, 0, 0, 0, 0, 255] 10 3 256 256 := by
    norm_num [eachAvgDataEmits, jsOr]
  have h10 : ([0, 0, 0, 0, 0, 0, 0, 0, 0, 255] : List ℚ).length = 10 := rfl
  rw [hemits, show (10 : ℕ) = ([0, 0, 0, 0, 0, 0, 0, 0, 0, 255] : List ℚ).length from rfl]
  rw [resampleCore_split _ 3 256 256 (by rw [h10]; norm_num)
    (by rw [h10, destPartOf_ten_three]; norm_num)]
  rw [h10, destPartOf_ten_three]
  norm_num [mainBucket, remBucket, chunkSum, List.range_succ]

/-- C1 (amended): with inputs supplied and a remainder run existing after
the `bucketCount` full nominal runs (`destPart ≥ 1`,
`bucketCount * destPart < sourceLength`), `eachAvgData` emits exactly
`bucketCount + 1` buckets and consumes every source sample exactly once,
the buckets being the full runs followed by the remainder bucket; but the
final bucket's value is `floor(outputMax * (floor(remainderSum /
destPart) / inputMax))` — the divisor is the nominal run size, not the
true remainder count (see `remBucket`) — and `getAvgData`'s post-line-372
body produces exactly these bucket values (the shipped `getAvgData`
itself throws a ReferenceError before emitting anything). -/
theorem eachAvgData_remainder_quirk (data : List ℚ) (slots : ℕ) (mm om : ℚ)
    (hmm : mm ≠ 0) (hom : om ≠ 0)
    (hdp : 1 ≤ destPartOf data.length slots)
    (hrem : slots * destPartOf data.length slots < data.length) :
    (eachAvgDataEmits data data.length slots (some mm) (some om)).length = slots + 1
    ∧ (∀ j, j < slots →
        (eachAvgDataEmits data data.length slots (some mm) (some om)).getD j default =
          mainBucket data (destPartOf data.length slots) mm om j
            (j * destPartOf data.length slots))
    ∧ (eachAvgDataEmits data data.length slots (some mm) (some om)).getD slots default =
        remBucket data data.length (destPartOf data.length slots) mm om (slots + 1)
          (slots * destPartOf data.length slots)
    ∧ getAvgDataBody data data.length slots mm om =
        (eachAvgDataEmits data data.length slots (some mm) (some om)).map Emit.sizeVal
    ∧ ((List.range slots).map (fun j =>
          (data.drop (j * destPartOf data.length slots)).take
            (destPartOf data.length slots))).flatten
        ++ data.drop (slots * destPartOf data.length slots) = data := by
  have hslots : slots * 1 ≤ slots * destPartOf data.length slots :=
    Nat.mul_le_mul_left slots hdp
  have hne : data.length ≠ slots := by omega
  have hemits : eachAvgDataEmits data data.length slots (some mm) (some om) =
      resampleCore data data.length slots mm om := by
    simp [eachAvgDataEmits, jsOr, hmm, hom]
  rw [hemits, resampleCore_split data slots mm om hne hrem]
  refine ⟨?_, ?_, ?_, ?_, ?_⟩
  · simp
  · intro j hj
    rw [List.getD_append _ _ _ _ (by simpa using hj)]
    rw [List.getD_eq_getElem _ _ (by simpa using hj)]
    simp
  · rw [List.getD_append_right _ _ _ _ (by simp)]
    simp
  · rw [getAvgDataBody, resampleCore_split data slots mm om hne hrem]
  · have := chunks_partition data (destPartOf data.length slots) slots 0
    simpa using this

/-- C1 witness: for the ten-sample array below with `bucketCount = 3`
(`destPart = round(10/3) = 3`), the hypotheses of
`eachAvgData_remainder_quirk` hold and the call emits `3 + 1` buckets. -/
theorem eachAvgData_remainder_quirk_witness :
    (eachAvgDataEmits [0, 0, 0, 0, 0, 0, 0, 0, 0, 255]
      ([0, 0, 0, 0, 0, 0, 0, 0, 0, 255] : List ℚ).length 3 (some 256) (some 256)).length
      = 3 + 1 :=
  (eachAvgData_remainder_quirk [0, 0, 0, 0, 0, 0, 0, 0, 0, 255] 3 256 256
    (by norm_num) (by norm_num)
    (by rw [show ([0, 0, 0, 0, 0, 0, 0, 0, 0, 255] : List ℚ).length = 10 from rfl,
          destPartOf_ten_three]
        norm_num)
    (by rw [show ([0, 0, 0, 0, 0, 0, 0, 0, 0, 255] : List ℚ).length = 10 from rfl,
          destPartOf_ten_three]
        norm_num)).1

/-- C1 counterexample: on `[0,...,0,255]` (nine zeros) with
`bufferLength = 10`, `resultSlots = 3`, `maxMinValue = outMaxValue =
256`, the claim predicts bucket values `[0, 0, 0, 255]` (final bucket
averaged over the true remainder count 1), but `eachAvgData` emits
`[0, 0, 0, 85]` (`floor(255 / 3) = 85`: the remainder sum is divided by
the nominal run size 3), and `getAvgData` throws a ReferenceError
instead of returning buckets at all. -/
theorem eachAvgData_remainder_divisor_cx :
    getAvgData jsInit [0, 0, 0, 0, 0, 0, 0, 0, 0, 255] 10 3 256 256 =
      .error "ReferenceError: normalizeValue is not defined"
    ∧ (eachAvgDataEmits [0, 0, 0, 0, 0, 0, 0, 0, 0, 255] 10 3 (some 256) (some 256)).map
        Emit.sizeVal ≠ [0, 0, 0, 255] := by
  refine ⟨rfl, ?_⟩
  rw [eachAvgDataEmits_ten_three]
  decide

/-- C2: the `fastFourierTransform` setter's guard tests evenness, not
power-of-two-ness, contradicting the property documentation and the
warning text: the non-power-of-two 34 is accepted (stored in `fftSize`
and `bufferLength`, no warning), while every power of two in `[2^5,
2^11] = [32, 2048]` is accepted as documented and the odd 33 is
rejected with a warning, leaving the previous value 2048. -/
theorem fastFourierTransform_accepts_even (st0 : AnalyserState) :
    ((setFastFourierTransform (mkAnalyserState none) 34).fastFourierTransform = 34
      ∧ (setFastFourierTransform (mkAnalyserState none) 34).bufferLength = 34
      ∧ (setFastFourierTransform (mkAnalyserState none) 34).warnCount = 0)
    ∧ ¬ (∃ k : ℕ, (34 : ℚ) = 2 ^ k)
    ∧ (∀ k : ℕ, 5 ≤ k → k ≤ 11 →
        (setFastFourierTransform st0 ((2 : ℚ) ^ k)).fastFourierTransform = 2 ^ k
        ∧ (setFastFourierTransform st0 ((2 : ℚ) ^ k)).bufferLength = 2 ^ k)
    ∧ ((setFastFourierTransform (mkAnalyserState none) 33).fastFourierTransform = 2048
      ∧ (setFastFourierTransform (mkAnalyserState none) 33).warnCount = 1) := by
  have h34 : setFastFourierTransform (mkAnalyserState none) 34 =
      { mkAnalyserState none with
          fastFourierTransform := jsRoundQ 34, bufferLength := jsRoundQ 34 } := by
    unfold setFastFourierTransform
    rw [if_pos]
    norm_num
  have hr34 : jsRoundQ 34 = 34 := by
    have := jsRoundQ_natCast 34
    norm_num at this
    exact this
  have h33 : setFastFourierTransform (mkAnalyserState none) 33 =
      { mkAnalyserState none with warnCount := (mkAnalyserState none).warnCount + 1 } := by
    unfold setFastFourierTransform
    rw [if_neg]
    intro h
    have := h.2.2
    norm_num at this
  refine ⟨⟨?_, ?_, ?_⟩, ?_, ?_, ?_, ?_⟩
  · rw [h34, hr34]
  · rw [h34, hr34]
  · rw [h34]; rfl
  · rintro ⟨k, hk⟩
    have hnat : (34 : ℕ) = 2 ^ k := by
      have h2 : ((2 ^ k : ℕ) : ℚ) = (2 : ℚ) ^ k := by push_cast; ring
      rw [← h2] at hk
      exact_mod_cast hk
    rcases le_or_lt k 5 with h5 | h6
    · have hle : (2 : ℕ) ^ k ≤ 2 ^ 5 := Nat.pow_le_pow_right (by norm_num) h5
      have h32 : (2 : ℕ) ^ 5 = 32 := by norm_num
      omega
    · have hle : (2 : ℕ) ^ 6 ≤ 2 ^ k := Nat.pow_le_pow_right (by norm_num) h6
      have h64 : (2 : ℕ) ^ 6 = 64 := by norm_num
      omega
  · intro k h5 h11
    have hcast : (2 : ℚ) ^ k = ((2 ^ k : ℕ) : ℚ) := by push_cast; ring
    have hlo : (32 : ℚ) ≤ 2 ^ k := by
      calc (32 : ℚ) = 2 ^ 5 := by norm_num
      _ ≤ 2 ^ k := by
        apply pow_le_pow_right₀ (by norm_num) h5
    have hhi : (2 : ℚ) ^ k ≤ 2048 := by
      calc (2 : ℚ) ^ k ≤ 2 ^ 11 := by
            apply pow_le_pow_right₀ (by norm_num) h11
      _ = 2048 := by norm_num
    have heven : ((2 : ℚ) ^ k / 2).den = 1 := by
      have hk1 : (2 : ℚ) ^ k / 2 = 2 ^ (k - 1) := by
        have hks : k = (k - 1) + 1 := by omega
        conv_lhs => rw [hks]
        rw [pow_succ, mul_div_assoc]
        norm_num
      rw [hk1, show (2 : ℚ) ^ (k - 1) = ((2 ^ (k - 1) : ℕ) : ℚ) by push_cast; ring]
      exact Rat.den_natCast _
    have hset : setFastFourierTransform st0 ((2 : ℚ) ^ k) =
        { st0 with fastFourierTransform := jsRoundQ ((2 : ℚ) ^ k),
                   bufferLength := jsRoundQ ((2 : ℚ) ^ k) } := by
      unfold setFastFourierTransform
      rw [if_pos ⟨hlo, hhi, heven⟩]
    have hround : jsRoundQ ((2 : ℚ) ^ k) = (2 : ℚ) ^ k := by
      rw [hcast, jsRoundQ_natCast]
    rw [hset, hround]
    exact ⟨rfl, rfl⟩
  · rw [h33]; rfl
  · rw [h33]; rfl

/-- C2 witness: instantiating the valid-acceptance part at the power of
two `2^6 = 64` on the freshly constructed state. -/
theorem fastFourierTransform_accepts_even_witness :
    (setFastFourierTransform (mkAnalyserState none) ((2 : ℚ) ^ 6)).fastFourierTransform = 2 ^ 6
    ∧ (setFastFourierTransform (mkAnalyserState none) ((2 : ℚ) ^ 6)).bufferLength = 2 ^ 6 :=
  (fastFourierTransform_accepts_even (mkAnalyserState none)).2.2.1 6 (by norm_num) (by norm_num)

/-- C3: in the fake-data branch of `update`, the dispatched frame reuses
the single synthetic array for `frequencyData` and `timeData`, and
`averageLeft` is the scalar average, but `volMeter` and `averageRight`
are the synthetic array itself, not scalars — exhibited on the fake
array `[4, 2]` whose average is 3. -/
theorem update_fake_branch_dispatch :
    (updateFakeDispatch [4, 2] 2).frequencyData = [4, 2]
    ∧ (updateFakeDispatch [4, 2] 2).timeData = [4, 2]
    ∧ (updateFakeDispatch [4, 2] 2).averageLeft = JSVal.num 3
    ∧ (updateFakeDispatch [4, 2] 2).volMeter = JSVal.arr [4, 2]
    ∧ (updateFakeDispatch [4, 2] 2).averageRight = JSVal.arr [4, 2]
    ∧ (updateFakeDispatch [4, 2] 2).volMeter ≠ JSVal.num 3
    ∧ (updateFakeDispatch [4, 2] 2).averageRight ≠ JSVal.num 3 := by
  have havg : getAvg [4, 2] = 3 := by
    norm_num [getAvg]
  refine ⟨rfl, rfl, ?_, rfl, rfl, ?_, ?_⟩
  · show JSVal.num ((getAvg [4, 2] : ℤ) : ℚ) = JSVal.num 3
    rw [havg]
    norm_num
  · simp [updateFakeDispatch]
  · simp [updateFakeDispatch]

/-- C4: `getAvgData` with `bufferLength == resultSlots` and both scale
arguments supplied.  As shipped the function throws a ReferenceError on
every call (line 372 reads the undeclared `normalizeValue`), exhibited
on `([100, 200], 2, 2, 256, 256)`; its body after that line returns
exactly `sourceLength` entries with element `i` equal to
`floor(outputMax * data[i] / inputMax)`, as the claim states. -/
theorem getAvgData_identity_branch (data : List ℚ) (mm om : ℚ) (_hmm : mm ≠ 0) :
    getAvgData jsInit [100, 200] 2 2 256 256 =
      .error "ReferenceError: normalizeValue is not defined"
    ∧ (getAvgDataBody data data.length data.length mm om).length = data.length
    ∧ getAvgDataBody data data.length data.length mm om =
        (List.range data.length).map (fun i => ⌊om * data.getD i 0 / mm⌋) := by
  have hbody : getAvgDataBody data data.length data.length mm om =
      (List.range data.length).map (fun i => ⌊om * data.getD i 0 / mm⌋) := by
    unfold getAvgDataBody resampleCore
    rw [if_pos rfl, List.map_map]
    apply List.map_congr_left
    intro i _
    simp only [Function.comp_apply]
    rw [mul_div_assoc]
  exact ⟨rfl, by rw [hbody]; simp, hbody⟩

/-- C4 witness: the intended identity-branch output on `[100, 200]` with
`inputMax = outputMax = 256` is `[100, 200]`. -/
theorem getAvgData_identity_branch_witness :
    getAvgDataBody [100, 200] 2 2 256 256 = [100, 200] := by
  have h : getAvgDataBody [100, 200] 2 2 256 256 =
      (List.range 2).map (fun i => ⌊(256 : ℚ) * ([100, 200] : List ℚ).getD i 0 / 256⌋) :=
    (getAvgData_identity_branch [100, 200] 256 256 (by norm_num)).2.2
  rw [h]
  norm_num [List.range_succ]

/-- C5 (amended): the fallback generator returns exactly `bufferLength`
values sorted in non-increasing order, and — because it takes the
absolute value of a draw from `[minDecibels, maxDecibels]` — every value
lies in `[0, max(|minDecibels|, |maxDecibels|)]` (the spec's bound
`[0, |maxDecibels - minDecibels|]` holds for the defaults but not for
every configuration). -/
theorem getFakeData_amended (n : ℕ) (minD maxD : ℤ) (draw : ℕ → ℤ)
    (hdraw : ∀ k, k < n → minD ≤ draw k ∧ draw k ≤ maxD) :
    (getFakeData n draw).length = n
    ∧ (∀ v ∈ getFakeData n draw, 0 ≤ v ∧ v ≤ max |minD| |maxD|)
    ∧ (getFakeData n draw).Sorted (· ≥ ·) := by
  unfold getFakeData
  refine ⟨?_, ?_, ?_⟩
  · rw [List.length_mergeSort]
    simp
  · intro v hv
    have hv2 : v ∈ (List.range n).map (fun k => |draw k|) :=
      (List.mergeSort_perm _ _).mem_iff.mp hv
    rcases List.mem_map.mp hv2 with ⟨k, hk, rfl⟩
    have hk' := hdraw k (List.mem_range.mp hk)
    refine ⟨abs_nonneg _, ?_⟩
    rcases le_or_lt 0 (draw k) with h0 | h0
    · rw [abs_of_nonneg h0]
      exact le_max_of_le_right (le_trans hk'.2 (le_abs_self maxD))
    · rw [abs_of_neg h0]
      exact le_max_of_le_left (le_trans (neg_le_neg hk'.1) (neg_le_abs minD))
  · have hs := @List.sorted_mergeSort ℤ (fun a b : ℤ => decide (b ≤ a))
      (fun a b c hab hbc => by
        simp only [decide_eq_true_eq] at *
        exact le_trans hbc hab)
      (fun a b => by
        simp only [Bool.or_eq_true, decide_eq_true_eq]
        exact le_total b a)
      ((List.range n).map (fun k => |draw k|))
    exact List.Pairwise.imp (fun h => of_decide_eq_true h) hs

/-- C5 witness: two draws `-3, 5` from the default range `[-150, 10]`
give two values, within `[0, max(150, 10)]`, sorted descending. -/
theorem getFakeData_amended_witness :
    (getFakeData 2 (fun k => if k = 0 then (-3 : ℤ) else 5)).length = 2
    ∧ (∀ v ∈ getFakeData 2 (fun k => if k = 0 then (-3 : ℤ) else 5),
        0 ≤ v ∧ v ≤ max |(-150 : ℤ)| |(10 : ℤ)|)
    ∧ (getFakeData 2 (fun k => if k = 0 then (-3 : ℤ) else 5)).Sorted (· ≥ ·) :=
  getFakeData_amended 2 (-150) 10 (fun k => if k = 0 then (-3 : ℤ) else 5) (by
    intro k hk
    by_cases h0 : k = 0 <;> simp [h0])

/-- C5 counterexample: with `minDecibels = 5`, `maxDecibels = 10` (both
accepted by the setters), the legal draw 10 yields the value `|10| = 10`,
which exceeds the claimed bound `|maxDecibels - minDecibels| = 5`. -/
theorem getFakeData_range_cx :
    ((5 : ℤ) ≤ 10 ∧ (10 : ℤ) ≤ 10)
    ∧ getFakeData 1 (fun _ => (10 : ℤ)) = [10]
    ∧ ¬ ((10 : ℤ) ≤ |(10 : ℤ) - 5|) := by
  refine ⟨⟨by norm_num, le_refl _⟩, ?_, by norm_num⟩
  unfold getFakeData
  have h1 : (List.range 1).map (fun k => |(fun _ => (10 : ℤ)) k|) = [10] := by
    norm_num [List.range_succ]
  rw [h1]
  exact List.perm_singleton.mp (List.mergeSort_perm [10] _)

/-- C6 (amended): `removeBitmapSoundAnalyse` removes exactly the LAST
reference-equal occurrence of the consumer (the scan runs from the end
of the registry), and is a no-op when the consumer is absent — stated as
equality with erasing the first occurrence in the reversed registry. -/
theorem removeBitmapSoundAnalyse_removes_last (l : List ℕ) (b : ℕ) :
    removeBitmapSoundAnalyse l b = (l.reverse.erase b).reverse := by
  induction l using List.reverseRecOn with
  | nil => rfl
  | append_singleton l a ih =>
    unfold removeBitmapSoundAnalyse
    have hlen : (l ++ [a]).length = l.length + 1 := by simp
    rw [hlen, findLastIdxAux, List.getElem?_concat_length]
    by_cases hab : a = b
    · subst hab
      rw [if_pos rfl]
      show List.take l.length (l ++ [a]) ++ List.drop (l.length + 1) (l ++ [a])
        = ((l ++ [a]).reverse.erase a).reverse
      rw [List.take_left, List.drop_eq_nil_of_le (by simp)]
      rw [List.reverse_append]
      simp
    · rw [if_neg (by simp [hab])]
      rw [findLastIdxAux_append l a b l.length le_rfl]
      unfold removeBitmapSoundAnalyse at ih
      rw [List.reverse_append]
      simp only [List.reverse_singleton, List.singleton_append]
      rw [List.erase_cons_tail (by simp [hab])]
      rw [List.reverse_cons]
      rcases hfind : findLastIdxAux l b l.length with _ | k
      · rw [hfind] at ih
        have ih2 : l = (l.reverse.erase b).reverse := ih
        show l ++ [a] = (l.reverse.erase b).reverse ++ [a]
        rw [← ih2]
      · rw [hfind] at ih
        have ih2 : List.take k l ++ List.drop (k + 1) l = (l.reverse.erase b).reverse := ih
        have hk := findLastIdxAux_lt l b l.length k hfind
        show List.take k (l ++ [a]) ++ List.drop (k + 1) (l ++ [a])
          = (l.reverse.erase b).reverse ++ [a]
        rw [List.take_append_of_le_length (by omega)]
        rw [List.drop_append_of_le_length (by omega)]
        rw [← ih2, ← List.append_assoc]

/-- C6 counterexample: on the registry `[7, 8, 7]` (consumer 7
registered first and last), removing 7 yields `[7, 8]` — the
latest-added occurrence is removed — not `[8, 7]` as removing the
earliest-added occurrence would give. -/
theorem removeBitmapSoundAnalyse_cx :
    removeBitmapSoundAnalyse [7, 8, 7] 7 = [7, 8] ∧ ([7, 8] : List ℕ) ≠ [8, 7] := by
  decide

/-- C7: `eachAvgData` defaults an omitted `maxMinValue` to 256 and an
omitted `outMaxValue` to the (possibly defaulted) `maxMinValue`, for
every input; but `getAvgData`'s defaulting line assigns the undeclared
`normalizeValue` instead of `maxMinValue` and throws a ReferenceError
reading it, so no call of `getAvgData` — with or without the scale
arguments — ever behaves as the claim describes, exhibited on
`([10, 20], 2, 1, 256, 256)`. -/
theorem resample_default_args :
    (∀ (data : List ℚ) (bl slots : ℕ) (om? : Option ℚ),
      eachAvgDataEmits data bl slots none om? = eachAvgDataEmits data bl slots (some 256) om?)
    ∧ (∀ (data : List ℚ) (bl slots : ℕ) (mm? : Option ℚ),
      eachAvgDataEmits data bl slots mm? none =
        eachAvgDataEmits data bl slots mm? (some (jsOr mm? 256)))
    ∧ getAvgData jsInit [10, 20] 2 1 256 256 =
        .error "ReferenceError: normalizeValue is not defined" := by
  refine ⟨?_, ?_, rfl⟩
  · intro data bl slots om?
    norm_num [eachAvgDataEmits, jsOr]
  · intro data bl slots mm?
    simp only [eachAvgDataEmits, jsOr, ite_self]

/-- C8: the constructor ignores the `allowFakeData` argument and
hardcodes the property to `true` (line 43), so it does not equal the
supplied boolean (in particular not `false` when the argument is `false`
or omitted); no modelled operation changes it afterwards. -/
theorem allowFakeData_hardcoded_true :
    (mkAnalyserState (some false)).allowFakeData = true
    ∧ (mkAnalyserState none).allowFakeData = true
    ∧ (∀ (st : AnalyserState) (val : ℚ),
        (setFastFourierTransform st val).allowFakeData = st.allowFakeData)
    ∧ (∀ (st : AnalyserState) (val : ℚ),
        (setMinDecibels st val).allowFakeData = st.allowFakeData)
    ∧ (∀ (st : AnalyserState) (val : ℚ),
        (setMaxDecibels st val).allowFakeData = st.allowFakeData) := by
  refine ⟨rfl, rfl, ?_, fun st val => rfl, fun st val => rfl⟩
  intro st val
  unfold setFastFourierTransform
  split <;> rfl

/-- C9 (amended): the outputs of both resample operations depend only on
their arguments (the input array, passed by value in the embedding, is
never written), but the operations do touch global state: every call of
`eachAvgData` that computes a bucket writes the undeclared global
`size`, leaving every other global untouched, and `getAvgData` reads the
undeclared global `normalizeValue`, throwing a ReferenceError in this
repository's environment. -/
theorem resample_global_effects :
    (∀ (g : JSGlobals) (data : List ℚ) (bl slots : ℕ) (mm? om? : Option ℚ),
      (eachAvgDataJS g data bl slots mm? om?).2 = eachAvgDataEmits data bl slots mm? om?
      ∧ (eachAvgDataJS g data bl slots mm? om?).1.normalizeValue = g.normalizeValue)
    ∧ getAvgData jsInit [1, 3] 2 2 256 256 =
        .error "ReferenceError: normalizeValue is not defined" := by
  refine ⟨?_, rfl⟩
  intro g data bl slots mm? om?
  constructor
  · rfl
  · unfold eachAvgDataJS
    cases h : (eachAvgDataEmits data bl slots mm? om?).getLast? <;> simp [h]

/-- C9 counterexample: a single `eachAvgData` call from the pristine
global environment changes it — the undeclared global `size` is created
and holds the last bucket's scaled value — so the operation is not free
of effects on shared state. -/
theorem eachAvgData_global_size_cx :
    (eachAvgDataJS jsInit [1] 1 1 (some 256) (some 256)).1 = ⟨none, some 1⟩
    ∧ (eachAvgDataJS jsInit [1] 1 1 (some 256) (some 256)).1 ≠ jsInit := by
  have he : eachAvgDataEmits [1] 1 1 (some 256) (some 256) =
      [⟨1, 1 / 256, 0, 0⟩] := by
    norm_num [eachAvgDataEmits, jsOr, resampleCore, List.range_succ]
  constructor
  · simp only [eachAvgDataJS, he, List.getLast?_singleton, jsInit]
    norm_num
  · simp only [eachAvgDataJS, he, List.getLast?_singleton, jsInit]
    simp [JSGlobals.mk.injEq]

/-- C10: `getAvg` on a non-empty array of byte values (each in
`[0, 255]`) returns the floor of the mean — equal to natural-number
division of the sum by the length, hence an integer — and the result
lies in `[0, 255]`. -/
theorem getAvg_floor_mean (ns : List ℕ) (hne : ns ≠ []) (hb : ∀ x ∈ ns, x ≤ 255) :
    getAvg (ns.map (fun n : ℕ => (n : ℚ))) = ((ns.sum / ns.length : ℕ) : ℤ)
    ∧ 0 ≤ getAvg (ns.map (fun n : ℕ => (n : ℚ)))
    ∧ getAvg (ns.map (fun n : ℕ => (n : ℚ))) ≤ 255 := by
  have hlen : 0 < ns.length := List.length_pos.mpr hne
  have hsum : (ns.map (fun n : ℕ => (n : ℚ))).sum = ((ns.sum : ℕ) : ℚ) :=
    (Nat.cast_list_sum ns).symm
  have hlen2 : (ns.map (fun n : ℕ => (n : ℚ))).length = ns.length := List.length_map _ _
  have hfloor : getAvg (ns.map (fun n : ℕ => (n : ℚ))) = ((ns.sum / ns.length : ℕ) : ℤ) := by
    unfold getAvg
    rw [hsum, hlen2]
    have h1 : ((ns.sum : ℕ) : ℚ) = (((ns.sum : ℕ) : ℤ) : ℚ) := (Int.cast_natCast ns.sum).symm
    rw [h1, Rat.floor_intCast_div_natCast]
    exact (Int.natCast_div ns.sum ns.length).symm
  refine ⟨hfloor, ?_, ?_⟩
  · rw [hfloor]
    positivity
  · rw [hfloor]
    have hs : ns.sum ≤ 255 * ns.length := by
      have := List.sum_le_card_nsmul ns 255 hb
      simpa [smul_eq_mul, Nat.mul_comm] using this
    have hq : ns.sum / ns.length ≤ 255 * ns.length / ns.length := Nat.div_le_div_right hs
    rw [Nat.mul_div_cancel 255 hlen] at hq
    exact_mod_cast hq

/-- C10 witness: `getAvg` of the byte array `[4, 2]` is
`floor(6 / 2) = 3`. -/
theorem getAvg_floor_mean_witness :
    getAvg ([4, 2].map (fun n : ℕ => (n : ℚ))) = (3 : ℤ) :=
  (getAvg_floor_mean [4, 2] (by decide) (by decide)).1
